import Mathlib

/-!
Shallow embedding of the diary application's core (storage.js, search.js,
calendar.js, tags.js) and proofs of the specified properties.

Modelling conventions:
* A JavaScript object used as a map (the `entries` collection, keyed by date)
  is an association list `Obj α := List (String × α)` with JS-object update
  semantics: assigning to an existing key updates the value in place (keeping
  the key's position), assigning a fresh key appends it.
* `localStorage` is modelled through a typed store state holding the two
  collections (`diary_entries`, `diary_tags`) plus an oracle `outcomes`
  listing the success/failure of successive `setItem` calls (a `false`
  models a `QuotaExceededError`; an exhausted oracle means writes succeed).
  The raw (string/JSON) layer is modelled separately for the corruption
  claims, parameterised by a decode function standing for `JSON.parse`.
* JS truthiness of a possibly-absent string (`null`/`undefined`/`""` are
  falsy) is `strTruthy`.
-/

namespace Diary

/-- A tag record `{id, name, color}` (tags.js / storage.js). -/
structure Tag where
  id : String
  name : String
  color : String
deriving Repr, DecidableEq

/-- A diary entry. Fields that JS code checks for presence/truthiness
(`title`, `content`, `tags`) are `Option`s; `none` models an absent field. -/
structure Entry where
  id : String
  date : String
  title : Option String
  content : Option String
  tags : Option (List String)
deriving Repr, DecidableEq

/-- JS truthiness of a possibly-absent string: `null`/`undefined` and `""`
are falsy. -/
def strTruthy : Option String → Bool
  | none => false
  | some s => s ≠ ""

/-- A JS object used as a string-keyed map, as an association list in key
insertion order. -/
abbrev Obj (α : Type) := List (String × α)

/-- Property lookup `m[k]` (first binding wins; well-formed objects have
distinct keys). -/
def objGet (m : Obj α) (k : String) : Option α :=
  (m.find? (fun p => p.1 = k)).map (·.2)

/-- Property assignment `m[k] = v` with JS-object semantics: an existing key
keeps its position and gets the new value, a fresh key is appended. -/
def objSet (m : Obj α) (k : String) (v : α) : Obj α :=
  if m.any (fun p => p.1 = k) then
    m.map (fun p => if p.1 = k then (k, v) else p)
  else
    m ++ [(k, v)]

/-- Object spread `{...a, ...b}`: start from `a` and assign each property of
`b` in order. -/
def objMerge (a b : Obj α) : Obj α :=
  b.foldl (fun m p => objSet m p.1 p.2) a

/-- Property deletion `delete m[k]` (other keys keep their order). -/
def objRemove (m : Obj α) (k : String) : Obj α :=
  m.filter (fun p => p.1 ≠ k)

/-- Keys of the object have no duplicates (JS objects guarantee this). -/
def ObjWF (m : Obj α) : Prop := (m.map (·.1)).Nodup

/-- Typed view of the `localStorage` state used by storage.js: the entries
collection (under key `diary_entries`), the tags collection (under key
`diary_tags`), and the oracle of outcomes of successive `setItem` calls
(`false` = `QuotaExceededError`; once exhausted, writes succeed). -/
structure Store where
  entries : Obj Entry
  tags : List Tag
  outcomes : List Bool
deriving Repr, DecidableEq

/-- Draw the next write outcome from the oracle. -/
def Store.popOutcome : Store → Bool × Store
  | ⟨e, t, []⟩ => (true, ⟨e, t, []⟩)
  | ⟨e, t, b :: rest⟩ => (b, ⟨e, t, rest⟩)

/-- All pending writes succeed. -/
def Store.allWritesOk (s : Store) : Prop := s.outcomes = []

namespace Storage

/-- `set(KEYS.ENTRIES, v)`: on success the collection is replaced and `true`
is returned; on `QuotaExceededError` the write does not happen and `false`
is returned (storage.js `set`). -/
def setEntries (v : Obj Entry) (s : Store) : Bool × Store :=
  let (ok, s') := s.popOutcome
  if ok then (true, { s' with entries := v }) else (false, s')

/-- `set(KEYS.TAGS, v)` (storage.js `set`). -/
def setTags (v : List Tag) (s : Store) : Bool × Store :=
  let (ok, s') := s.popOutcome
  if ok then (true, { s' with tags := v }) else (false, s')

/-- `getAllEntries()` at the typed layer. -/
def getAllEntries (s : Store) : Obj Entry := s.entries

/-- `getEntry(date)`: `entries[date] || null`. -/
def getEntry (date : String) (s : Store) : Option Entry :=
  objGet s.entries date

/-- `saveEntry(entry)`: upsert by date key, then persist. -/
def saveEntry (e : Entry) (s : Store) : Bool × Store :=
  setEntries (objSet s.entries e.date e) s

/-- `deleteEntry(date)`: delete and persist when present, otherwise return
`false` without writing. -/
def deleteEntry (date : String) (s : Store) : Bool × Store :=
  if (objGet s.entries date).isSome then
    setEntries (objRemove s.entries date) s
  else
    (false, s)

/-- `getAllTags()` at the typed layer. -/
def getAllTags (s : Store) : List Tag := s.tags

/-- `saveTags(tags)`. -/
def saveTags (tags : List Tag) (s : Store) : Bool × Store :=
  setTags tags s

/-- `addTag(tag)`: push and persist. -/
def addTag (t : Tag) (s : Store) : Bool × Store :=
  saveTags (s.tags ++ [t]) s

/-- `deleteTag(tagId)`: filter the tag out and persist the filtered list
(note: persists and returns the write's result even when the id was absent). -/
def deleteTag (tagId : String) (s : Store) : Bool × Store :=
  saveTags (s.tags.filter (fun t => t.id ≠ tagId)) s

/-- The parsed argument of `importData`: `none` models an absent (or
otherwise falsy) `entries`/`tags` field of the snapshot. -/
structure ImportData where
  entries : Option (Obj Entry)
  tags : Option (List Tag)
deriving Repr, DecidableEq

/-- `importData(data, mode)` (storage.js): validation (`!data.entries ||
!data.tags` throws, caught, returns `false` with no write); `overwrite`
replaces both collections; otherwise merge: entries by object spread
(incoming key wins), tags keep all current ones and append only incoming
tags whose id is not already present. The results of the two `set` calls
are discarded and `true` is returned. -/
def importData (data : ImportData) (mode : String) (s : Store) : Bool × Store :=
  match data.entries, data.tags with
  | some de, some dt =>
    if mode = "overwrite" then
      let s1 := (setEntries de s).2
      let s2 := (setTags dt s1).2
      (true, s2)
    else
      let currentEntries := getAllEntries s
      let currentTags := getAllTags s
      let mergedEntries := objMerge currentEntries de
      let tagIds := currentTags.map (·.id)
      let newTags := dt.filter (fun t => ¬ tagIds.contains t.id)
      let mergedTags := currentTags ++ newTags
      let s1 := (setEntries mergedEntries s).2
      let s2 := (setTags mergedTags s1).2
      (true, s2)
  | _, _ => (false, s)

end Storage

namespace Tags

/-- Strip a tag id from one entry, as the loop body of tags.js `remove`
does: only entries whose (present) tag list contains the id are touched. -/
def stripTag (tagId : String) (e : Entry) : Entry :=
  match e.tags with
  | some ts =>
    if ts.contains tagId then { e with tags := some (ts.filter (fun t => t ≠ tagId)) } else e
  | none => e

/-- `Tags.remove(tagId)` (tags.js): strip the id from every entry, persist
the entries collection only if some entry changed, then delete the tag
record via `Storage.deleteTag`. -/
def remove (tagId : String) (s : Store) : Bool × Store :=
  let entries := Storage.getAllEntries s
  let updated := entries.any (fun p => match p.2.tags with
    | some ts => ts.contains tagId
    | none => false)
  let entries' := entries.map (fun p => (p.1, stripTag tagId p.2))
  let s1 := if updated then (Storage.setEntries entries' s).2 else s
  Storage.deleteTag tagId s1

end Tags

namespace Search

/-- JS `String.prototype.includes`: `sub` occurs as a contiguous substring. -/
def strIncludes (s sub : String) : Bool :=
  s.toList.tails.any (fun t => sub.toList.isPrefixOf t)

/-- The module-level filter state `currentFilters` of search.js. -/
structure Filters where
  keyword : String
  tags : List String
  fromDate : Option String
  toDate : Option String
deriving Repr, DecidableEq

/-- The initial module state: `{keyword: '', tags: [], fromDate: null,
toDate: null}`. -/
def initialFilters : Filters := ⟨"", [], none, none⟩

/-- The object literal passed to `search`: each field may be present
(overriding the module state under spread) or absent. For `fromDate` and
`toDate` a present field can itself be `null`. -/
structure PartialFilters where
  keyword : Option String
  tags : Option (List String)
  fromDate : Option (Option String)
  toDate : Option (Option String)
deriving Repr, DecidableEq

/-- `search({})`: no field present. -/
def emptyArg : PartialFilters := ⟨none, none, none, none⟩

/-- The spread `{...currentFilters, ...filters}`: present fields of the
argument override the module state. -/
def mergeFilters (cur : Filters) (f : PartialFilters) : Filters :=
  { keyword := f.keyword.getD cur.keyword
    tags := f.tags.getD cur.tags
    fromDate := f.fromDate.getD cur.fromDate
    toDate := f.toDate.getD cur.toDate }

/-- `searchByKeyword(keyword)` (search.js): iterate the entries object in
key order and keep entries with a case-insensitive substring match on a
truthy `title` or `content`. -/
def searchByKeyword (keyword : String) (s : Store) : List Entry :=
  let lowerKeyword := keyword.toLower
  ((Storage.getAllEntries s).filter (fun p =>
    let e := p.2
    let titleMatch := match e.title with
      | some t => strTruthy (some t) && strIncludes t.toLower lowerKeyword
      | none => false
    let contentMatch := match e.content with
      | some c => strTruthy (some c) && strIncludes c.toLower lowerKeyword
      | none => false
    titleMatch || contentMatch)).map (·.2)

/-- `filterByTags(entries, tagIds)` (search.js): empty selection is a
pass-through; otherwise keep entries whose present, non-empty tag list
meets the selection. -/
def filterByTags (entries : List Entry) (tagIds : List String) : List Entry :=
  if tagIds.isEmpty then entries
  else entries.filter (fun e =>
    match e.tags with
    | none => false
    | some ts => if ts.isEmpty then false else tagIds.any (fun tid => ts.contains tid))

/-- `filterByDateRange(entries, fromDate, toDate)` (search.js): a truthy
bound excludes entries strictly outside it (string comparison on the
zero-padded dates). -/
def filterByDateRange (entries : List Entry) (fromDate toDate : Option String) : List Entry :=
  entries.filter (fun e =>
    if strTruthy fromDate && decide (e.date < fromDate.getD "") then false
    else if strTruthy toDate && decide (toDate.getD "" < e.date) then false
    else true)

/-- The comparator `(a, b) => b.date.localeCompare(a.date)` read as a
"comes-no-later" relation for the sort. -/
def dateDescLe (a b : Entry) : Bool := decide (b.date ≤ a.date)

/-- `search(filters)` (search.js): merge the argument into the module-level
`currentFilters`, source from keyword search or all entries, apply the tag
and date-range stages when active, and sort by date descending. Returns the
results together with the updated module state. -/
def search (f : PartialFilters) (cur : Filters) (s : Store) : List Entry × Filters :=
  let cf := mergeFilters cur f
  let results0 :=
    if cf.keyword ≠ "" then searchByKeyword cf.keyword s
    else (Storage.getAllEntries s).map (·.2)
  let results1 :=
    if ¬ cf.tags.isEmpty then filterByTags results0 cf.tags else results0
  let results2 :=
    if strTruthy cf.fromDate || strTruthy cf.toDate then
      filterByDateRange results1 cf.fromDate cf.toDate
    else results1
  (results2.mergeSort dateDescLe, cf)

end Search

namespace Calendar

/-- Gregorian leap-year rule, as JS `Date` implements it. -/
def isLeap (y : Nat) : Bool :=
  (y % 4 == 0 && y % 100 != 0) || y % 400 == 0

/-- `new Date(y, m + 1, 0).getDate()`: number of days of 0-based month `m`
of year `y` (only months 0–11 are ever passed). -/
def monthLength (y m : Nat) : Nat :=
  match m with
  | 0 => 31
  | 1 => if isLeap y then 29 else 28
  | 2 => 31
  | 3 => 30
  | 4 => 31
  | 5 => 30
  | 6 => 31
  | 7 => 31
  | 8 => 30
  | 9 => 31
  | 10 => 30
  | 11 => 31
  | _ => 0

/-- Days in proleptic Gregorian years `0, …, y - 1`. -/
def daysBeforeYear (y : Nat) : Nat :=
  365 * y + (y + 3) / 4 + (y + 399) / 400 - (y + 99) / 100

/-- Days before 0-based month `m` in year `y`. -/
def daysBeforeMonth (y m : Nat) : Nat :=
  ((List.range m).map (monthLength y)).sum

/-- `new Date(y, m, d).getDay()`: weekday with 0 = Sunday. The proleptic
Gregorian date 0000-01-01 is a Saturday. -/
def dayOfWeek (y m d : Nat) : Nat :=
  (daysBeforeYear y + daysBeforeMonth y m + (d - 1) + 6) % 7

/-- `new Date(y, m, 0).getDate()`: last day of the month before 0-based
month `m` (December of the previous year when `m = 0`). -/
def prevMonthLastDay (y m : Nat) : Nat :=
  if m = 0 then monthLength (y - 1) 11 else monthLength y (m - 1)

/-- `String(n).padStart(2, '0')`. -/
def pad2 (n : Nat) : String :=
  if n < 10 then "0" ++ toString n else toString n

/-- The template `` `${year}-${pad(month + 1)}-${pad(day)}` `` with a
0-based month. -/
def formatYMD (y m d : Nat) : String :=
  toString y ++ "-" ++ pad2 (m + 1) ++ "-" ++ pad2 d

/-- The data of one rendered calendar day cell of `renderDays`
(calendar.js): the day number and `data-date` string plus the class flags. -/
structure Cell where
  day : Nat
  dateString : String
  isOtherMonth : Bool
  isToday : Bool
  isSelected : Bool
  isSunday : Bool
  isSaturday : Bool
  hasEntry : Bool
deriving Repr, DecidableEq

/-- Inputs of a grid rendering: displayed year and 0-based month, the
module's `todayString` and `selectedDate`, and the set of dates that have a
diary entry. -/
structure GridCtx where
  year : Nat
  month : Nat
  todayString : String
  selectedDate : Option String
  entryDates : List String
deriving Repr, DecidableEq

/-- The class flags computed for a cell at flat index `i` (weekday
`i % 7`). -/
def mkCell (ctx : GridCtx) (i day : Nat) (dateString : String) (isOther : Bool) : Cell :=
  { day := day
    dateString := dateString
    isOtherMonth := isOther
    isToday := dateString == ctx.todayString
    isSelected := ctx.selectedDate == some dateString
    isSunday := i % 7 == 0
    isSaturday := i % 7 == 6
    hasEntry := ctx.entryDates.contains dateString }

/-- The cell loop of `renderDays`, over the flat cell indices
`week * 7 + dayOfWeek`, carrying the mutable `dayCount` and
`nextMonthDay` counters. -/
def buildCellsFrom (ctx : GridCtx) (sdw lastDate prevLast : Nat) :
    List Nat → Nat → Nat → List Cell
  | [], _, _ => []
  | i :: rest, dayCount, nextMonthDay =>
    if i < sdw then
      let day := prevLast + i + 1 - sdw
      let pm := if ctx.month = 0 then 11 else ctx.month - 1
      let py := if ctx.month = 0 then ctx.year - 1 else ctx.year
      mkCell ctx i day (formatYMD py pm day) true ::
        buildCellsFrom ctx sdw lastDate prevLast rest dayCount nextMonthDay
    else if dayCount ≤ lastDate then
      mkCell ctx i dayCount (formatYMD ctx.year ctx.month dayCount) false ::
        buildCellsFrom ctx sdw lastDate prevLast rest (dayCount + 1) nextMonthDay
    else
      let nm := if ctx.month = 11 then 0 else ctx.month + 1
      let ny := if ctx.month = 11 then ctx.year + 1 else ctx.year
      mkCell ctx i nextMonthDay (formatYMD ny nm nextMonthDay) true ::
        buildCellsFrom ctx sdw lastDate prevLast rest dayCount (nextMonthDay + 1)

/-- `renderDays` (calendar.js), restricted to the per-cell data it
computes: 6 weeks × 7 days of cells starting at the weekday of the 1st. -/
def renderDaysCells (ctx : GridCtx) : List Cell :=
  let startDayOfWeek := dayOfWeek ctx.year ctx.month 1
  let lastDate := monthLength ctx.year ctx.month
  let prevLast := prevMonthLastDay ctx.year ctx.month
  buildCellsFrom ctx startDayOfWeek lastDate prevLast (List.range 42) 1 1

end Calendar

namespace Storage

/-- The storage key of the entries collection. -/
def KEY_ENTRIES : String := "diary_entries"

/-- The storage key of the tags collection. -/
def KEY_TAGS : String := "diary_tags"

/-- `get(key)` (storage.js) at the raw string layer: `medium` is
`localStorage.getItem` (`none` = key absent), `decode` stands for
`JSON.parse` with `none` modelling a parse exception; the `data ? … : null`
guard makes the empty string falsy, and the `try/catch` turns a parse
exception into `null`. -/
def rawGet {α : Type} (medium : String → Option String)
    (decode : String → Option α) (key : String) : Option α :=
  match medium key with
  | none => none
  | some text => if text = "" then none else decode text

/-- `getAllEntries()` at the raw layer: `get(KEYS.ENTRIES) || {}`. -/
def rawGetAllEntries (medium : String → Option String)
    (decode : String → Option (Obj Entry)) : Obj Entry :=
  (rawGet medium decode KEY_ENTRIES).getD []

/-- `getAllTags()` at the raw layer: `get(KEYS.TAGS) || []`. -/
def rawGetAllTags (medium : String → Option String)
    (decode : String → Option (List Tag)) : List Tag :=
  (rawGet medium decode KEY_TAGS).getD []

end Storage

/-- Store well-formedness: the entries object has distinct keys and each
entry's `date` field equals its storage key (the repository maintains both:
`saveEntry` keys by `entry.date`). -/
def Store.WF (s : Store) : Prop :=
  ObjWF s.entries ∧ ∀ p ∈ s.entries, p.2.date = p.1

/-! Concrete sample data used by witnesses and counterexamples. -/

/-- Sample tag `{id: T1, name: Work}` from the spec's merge scenario. -/
def tagWork : Tag := ⟨"T1", "Work", "#4a90d9"⟩

/-- Incoming tag with the same id and a different name. -/
def tagTravail : Tag := ⟨"T1", "Travail", "#e91e63"⟩

/-- Incoming tag with a fresh id. -/
def tagHome : Tag := ⟨"T2", "Home", "#2ecc71"⟩

/-- Sample entry on 2024-01-05 carrying tag T1. -/
def entryJan05 : Entry :=
  ⟨"e1", "2024-01-05", some "ski trip", some "snow day", some ["T1"]⟩

/-- Sample entry on 2024-01-20 with no tags. -/
def entryJan20 : Entry :=
  ⟨"e2", "2024-01-20", some "quiet", some "reading at home", some []⟩

/-- Incoming replacement entry for 2024-01-05. -/
def entryJan05v2 : Entry :=
  ⟨"e3", "2024-01-05", some "revised", some "rewritten", some []⟩

/-- Incoming fresh entry on 2024-02-01. -/
def entryFeb01 : Entry :=
  ⟨"e4", "2024-02-01", some "new month", some "fresh start", none⟩

/-- A store holding the two sample entries and the sample tag, with all
writes succeeding. -/
def sampleStore : Store :=
  ⟨[("2024-01-05", entryJan05), ("2024-01-20", entryJan20)], [tagWork], []⟩

/-- The sample snapshot collections used by the import witnesses. -/
def sampleImportEntries : Obj Entry :=
  [("2024-01-05", entryJan05v2), ("2024-02-01", entryFeb01)]

/-- A store whose next two writes fail with `QuotaExceededError`. -/
def failStore : Store :=
  ⟨[("2024-01-20", entryJan20)], [tagWork], [false, false]⟩

/-- A raw medium whose every key holds text that no decoder accepts. -/
def corruptMedium : String → Option String := fun _ => some "not json"

/-- A decoder (for the entries collection) that rejects every text, as
`JSON.parse` does on corrupt input. -/
def noDecodeEntries : String → Option (Obj Entry) := fun _ => none

/-- A decoder (for the tags collection) that rejects every text. -/
def noDecodeTags : String → Option (List Tag) := fun _ => none

/-- The intervening `search` argument used to show filter-state leakage:
only `fromDate` is present. -/
def interveningArg : Search.PartialFilters :=
  ⟨none, none, some (some "2024-06-01"), none⟩

end Diary

namespace Diary

/-- C8: the tag filter applied with an empty tag-id selection is the
identity transform on its input sequence, in the same order. -/
theorem C8_filterByTags_empty_selection_identity (entries : List Entry) :
    Search.filterByTags entries [] = entries := rfl

/-- C3: an import input lacking a required `entries` or `tags` field makes
`importData` return `false` with the store (both collections and the write
oracle) completely untouched: validation precedes any mutation. -/
theorem C3_import_missing_field_is_pure_failure (s : Store)
    (data : Storage.ImportData) (mode : String)
    (h : data.entries = none ∨ data.tags = none) :
    Storage.importData data mode s = (false, s) := by
  rcases data with ⟨de, dt⟩
  rcases h with h | h <;> simp only at h <;> subst h
  · rfl
  · cases de <;> rfl

/-- Witness for C3: a concrete input missing `entries` fails purely. -/
theorem C3_witness :
    ((⟨none, some [tagWork]⟩ : Storage.ImportData).entries = none ∨
      (⟨none, some [tagWork]⟩ : Storage.ImportData).tags = none) ∧
    Storage.importData ⟨none, some [tagWork]⟩ "merge" sampleStore = (false, sampleStore) :=
  ⟨Or.inl rfl,
    C3_import_missing_field_is_pure_failure sampleStore ⟨none, some [tagWork]⟩ "merge" (Or.inl rfl)⟩

/-- C5 counterexample: `deleteTag` on an id absent from the tag collection
returns `true` (the result of persisting the unchanged filtered list), not
the claimed `false`. -/
theorem C5_counterexample :
    ¬ ((Storage.deleteTag "T9" sampleStore).1 = false) := by decide

/-- C5 (amended): `deleteEntry` of a date with no stored entry returns
`false` and performs no write; `deleteTag` of an absent id leaves both
collections unchanged in value (it rewrites an identical tag list) but
returns `true` when that write succeeds. Both are value-level no-ops and
neither raises. -/
theorem C5_amended_missing_deletes_are_noops (s : Store) (date tagId : String)
    (he : objGet s.entries date = none)
    (ht : ∀ t ∈ s.tags, t.id ≠ tagId)
    (hw : s.allWritesOk) :
    Storage.deleteEntry date s = (false, s) ∧
    Storage.deleteTag tagId s = (true, s) := by
  constructor
  · unfold Storage.deleteEntry
    rw [he]
    rfl
  · have hfilter : s.tags.filter (fun t => t.id ≠ tagId) = s.tags := by
      rw [List.filter_eq_self]
      intro t htm
      simpa using ht t htm
    rcases s with ⟨e, tg, out⟩
    simp only [Store.allWritesOk] at hw
    subst hw
    unfold Storage.deleteTag Storage.saveTags Storage.setTags
    simp only at hfilter
    rw [hfilter]
    rfl

/-- Witness for C5 (amended) at a concrete store, date and tag id. -/
theorem C5_amended_witness :
    objGet sampleStore.entries "2024-03-03" = none ∧
    (∀ t ∈ sampleStore.tags, t.id ≠ "T9") ∧
    sampleStore.allWritesOk ∧
    (Storage.deleteEntry "2024-03-03" sampleStore = (false, sampleStore) ∧
      Storage.deleteTag "T9" sampleStore = (true, sampleStore)) :=
  ⟨by decide, by decide, rfl,
    C5_amended_missing_deletes_are_noops sampleStore "2024-03-03" "T9"
      (by decide) (by decide) rfl⟩

/-- C10: whenever both `entries` and `tags` are present, `importData`
returns `true` for every mode, store state and write-outcome oracle (the
`set` results are discarded); concretely, at a store whose writes fail the
collections are untouched while the result is still `true`, so a `true`
result does not imply the data was persisted. -/
theorem C10_import_true_despite_failed_writes :
    (∀ (s : Store) (de : Obj Entry) (dt : List Tag) (mode : String),
      (Storage.importData ⟨some de, some dt⟩ mode s).1 = true) ∧
    (Storage.importData ⟨some sampleImportEntries, some [tagTravail, tagHome]⟩
        "merge" failStore).1 = true ∧
    (Storage.importData ⟨some sampleImportEntries, some [tagTravail, tagHome]⟩
        "merge" failStore).2.entries = failStore.entries ∧
    (Storage.importData ⟨some sampleImportEntries, some [tagTravail, tagHome]⟩
        "merge" failStore).2.tags = failStore.tags ∧
    objGet (Storage.importData ⟨some sampleImportEntries, some [tagTravail, tagHome]⟩
        "merge" failStore).2.entries "2024-02-01" = none := by
  refine ⟨?_, by decide, by decide, by decide, by decide⟩
  intro s de dt mode
  by_cases h : mode = "overwrite" <;> simp [Storage.importData, h]

/-- C7: for every key whose stored text no decoder accepts (`JSON.parse`
throws, modelled as the decode parameter returning `none`), `get` returns
`none` rather than raising, and the typed collection readers degrade the
corrupt data to the empty collection; the `Option`-valued decode is total,
so no serialization error can propagate out of the store layer. -/
theorem C7_corrupt_text_degrades_to_empty
    {α : Type} (medium : String → Option String) (decode : String → Option α)
    (decodeE : String → Option (Obj Entry)) (decodeT : String → Option (List Tag))
    (key text textE textT : String)
    (h1 : medium key = some text) (h2 : decode text = none)
    (hE1 : medium Storage.KEY_ENTRIES = some textE) (hE2 : decodeE textE = none)
    (hT1 : medium Storage.KEY_TAGS = some textT) (hT2 : decodeT textT = none) :
    Storage.rawGet medium decode key = none ∧
    Storage.rawGetAllEntries medium decodeE = [] ∧
    Storage.rawGetAllTags medium decodeT = [] := by
  refine ⟨?_, ?_, ?_⟩
  · have hred : Storage.rawGet medium decode key
        = if text = "" then none else decode text := by
      unfold Storage.rawGet
      rw [h1]
    rw [hred]
    split
    · rfl
    · exact h2
  · have hred : Storage.rawGetAllEntries medium decodeE
        = (if textE = "" then none else decodeE textE).getD [] := by
      unfold Storage.rawGetAllEntries Storage.rawGet
      rw [hE1]
    rw [hred]
    split
    · rfl
    · rw [hE2]
      rfl
  · have hred : Storage.rawGetAllTags medium decodeT
        = (if textT = "" then none else decodeT textT).getD [] := by
      unfold Storage.rawGetAllTags Storage.rawGet
      rw [hT1]
    rw [hred]
    split
    · rfl
    · rw [hT2]
      rfl

/-- Witness for C7 at a concrete corrupt medium and failing decoders. -/
theorem C7_witness :
    corruptMedium "some_key" = some "not json" ∧
    noDecodeEntries "not json" = none ∧
    corruptMedium Storage.KEY_ENTRIES = some "not json" ∧
    corruptMedium Storage.KEY_TAGS = some "not json" ∧
    noDecodeTags "not json" = none ∧
    (Storage.rawGet corruptMedium noDecodeEntries "some_key" = none ∧
      Storage.rawGetAllEntries corruptMedium noDecodeEntries = [] ∧
      Storage.rawGetAllTags corruptMedium noDecodeTags = []) :=
  ⟨rfl, rfl, rfl, rfl, rfl,
    C7_corrupt_text_degrades_to_empty corruptMedium noDecodeEntries noDecodeEntries
      noDecodeTags "some_key" "not json" "not json" "not json"
      rfl rfl rfl rfl rfl rfl⟩

/-- C9: `search` merges its argument into module-level filter state that
persists across calls: two calls of `search({})` over the same store,
separated by a call that sets only `fromDate`, return different results.
The first returns both stored entries, the third returns none of them. -/
theorem C9_search_not_pure_across_calls :
    (Search.search Search.emptyArg Search.initialFilters sampleStore).1 ≠
      (Search.search Search.emptyArg
        (Search.search interveningArg
          (Search.search Search.emptyArg Search.initialFilters sampleStore).2
          sampleStore).2
        sampleStore).1 := by
  simp +decide [Search.search, Search.emptyArg, Search.initialFilters, Search.mergeFilters,
    interveningArg, sampleStore, Storage.getAllEntries, Search.filterByDateRange,
    strTruthy, Search.dateDescLe, entryJan05, entryJan20, List.mergeSort,
    List.merge, Search.filterByTags]

end Diary

namespace Diary

/-- Lookup on a cons cell. -/
theorem objGet_cons (p : String × α) (m : Obj α) (k : String) :
    objGet (p :: m) k = if p.1 = k then some p.2 else objGet m k := by
  unfold objGet
  rw [List.find?_cons]
  by_cases hp : p.1 = k
  · simp [hp]
  · simp [hp]

/-- The empty object has no bindings. -/
theorem objGet_nil (k : String) : objGet ([] : Obj α) k = none := rfl

/-- In-place update of key `k` does not affect lookups of other keys. -/
theorem objGet_map_update_ne (m : Obj α) (k k' : String) (v : α) (h : k' ≠ k) :
    objGet (m.map (fun p => if p.1 = k then (k, v) else p)) k' = objGet m k' := by
  induction m with
  | nil => rfl
  | cons p rest ih =>
    rw [List.map_cons, objGet_cons, objGet_cons]
    by_cases hp : p.1 = k
    · rw [if_pos hp]
      have h1 : ¬ ((k, v).1 = k') := fun hkv => h hkv.symm
      rw [if_neg h1, if_neg (fun hpk : p.1 = k' => h (hp.symm.trans hpk).symm)]
      exact ih
    · rw [if_neg hp]
      by_cases hpk : p.1 = k'
      · rw [if_pos hpk, if_pos hpk]
      · rw [if_neg hpk, if_neg hpk]
        exact ih

/-- In-place update of a present key `k` makes `k` look up the new value. -/
theorem objGet_map_update_self (m : Obj α) (k : String) (v : α)
    (h : m.any (fun p => p.1 = k) = true) :
    objGet (m.map (fun p => if p.1 = k then (k, v) else p)) k = some v := by
  induction m with
  | nil => simp at h
  | cons p rest ih =>
    rw [List.map_cons, objGet_cons]
    by_cases hp : p.1 = k
    · rw [if_pos hp]
      simp
    · rw [if_neg hp]
      rw [if_neg hp]
      apply ih
      rw [List.any_cons] at h
      simpa [hp] using h

/-- Lookup after appending a single fresh binding at the end. -/
theorem objGet_append_single (m : Obj α) (k k' : String) (v : α) :
    objGet (m ++ [(k, v)]) k' =
      match objGet m k' with
      | some w => some w
      | none => if k = k' then some v else none := by
  induction m with
  | nil =>
    rw [List.nil_append, objGet_cons, objGet_nil]
  | cons p rest ih =>
    rw [List.cons_append, objGet_cons, objGet_cons]
    by_cases hp : p.1 = k'
    · rw [if_pos hp, if_pos hp]
    · rw [if_neg hp, if_neg hp]
      exact ih

/-- Characterisation of lookup after a JS-object assignment. -/
theorem objGet_objSet (m : Obj α) (k k' : String) (v : α) :
    objGet (objSet m k v) k' = if k' = k then some v else objGet m k' := by
  unfold objSet
  by_cases ha : m.any (fun p => p.1 = k)
  · rw [if_pos ha]
    by_cases hk : k' = k
    · subst hk
      rw [if_pos rfl, objGet_map_update_self m k' v ha]
    · rw [if_neg hk, objGet_map_update_ne m k k' v hk]
  · rw [if_neg ha]
    rw [objGet_append_single]
    have hnone : objGet m k = none := by
      unfold objGet
      rw [List.find?_eq_none.mpr]
      · rfl
      · intro x hx hpx
        exact ha (List.any_eq_true.mpr ⟨x, hx, hpx⟩)
    by_cases hk : k' = k
    · subst hk
      rw [hnone]
    · rw [if_neg hk]
      cases hg : objGet m k' with
      | none =>
        show (if k = k' then some v else none) = none
        rw [if_neg (fun h : k = k' => hk h.symm)]
      | some w => rfl

/-- Lookup in an object spread `{...a, ...b}` (with `b` well-formed): a
binding of `b` wins, otherwise `a`'s binding survives. -/
theorem objGet_objMerge (a b : Obj α) (hb : ObjWF b) (k : String) :
    objGet (objMerge a b) k = (objGet b k).or (objGet a k) := by
  induction b generalizing a with
  | nil =>
    rw [objGet_nil, Option.none_or]
    rfl
  | cons p rest ih =>
    have hb' : (rest.map (fun q => q.1)).Nodup ∧ p.1 ∉ rest.map (fun q => q.1) := by
      unfold ObjWF at hb
      rw [List.map_cons, List.nodup_cons] at hb
      exact ⟨hb.2, hb.1⟩
    have hmerge : objMerge a (p :: rest) = objMerge (objSet a p.1 p.2) rest := rfl
    rw [hmerge, ih (objSet a p.1 p.2) hb'.1, objGet_cons]
    by_cases hk : p.1 = k
    · subst hk
      have hrest : objGet rest p.1 = none := by
        unfold objGet
        rw [List.find?_eq_none.mpr]
        · rfl
        · intro x hx hpx
          exact hb'.2 (List.mem_map.mpr ⟨x, hx, by simpa using hpx⟩)
      rw [hrest, Option.none_or, objGet_objSet, if_pos rfl, if_pos rfl, Option.or_some]
    · rw [if_neg hk, objGet_objSet, if_neg (fun h : k = p.1 => hk h.symm)]

/-- C1: for every store and well-formed snapshot, merge-mode import makes a
date look up the incoming entry when the snapshot binds it and the stored
entry otherwise (colliding dates take the incoming entry, non-colliding
ones are kept or added); every existing tag is kept with its fields, an
incoming tag is appended exactly when no stored tag has its id, and every
resulting tag is either a stored one or such a fresh incoming one.
Overwrite-mode import replaces both collections with the snapshot's
contents. -/
theorem C1_import_merge_and_overwrite (s : Store) (de : Obj Entry) (dt : List Tag)
    (hwf : ObjWF de) (hw : s.allWritesOk) :
    ((∀ d, objGet (Storage.importData ⟨some de, some dt⟩ "merge" s).2.entries d
        = (objGet de d).or (objGet s.entries d)) ∧
      (Storage.importData ⟨some de, some dt⟩ "merge" s).2.tags
        = s.tags ++ dt.filter (fun t => ¬ (s.tags.map (·.id)).contains t.id) ∧
      (∀ t ∈ s.tags, t ∈ (Storage.importData ⟨some de, some dt⟩ "merge" s).2.tags) ∧
      (∀ t ∈ dt, (∀ t0 ∈ s.tags, t0.id ≠ t.id) →
        t ∈ (Storage.importData ⟨some de, some dt⟩ "merge" s).2.tags) ∧
      (∀ t ∈ (Storage.importData ⟨some de, some dt⟩ "merge" s).2.tags,
        t ∈ s.tags ∨ (t ∈ dt ∧ ∀ t0 ∈ s.tags, t0.id ≠ t.id))) ∧
    ((Storage.importData ⟨some de, some dt⟩ "overwrite" s).2.entries = de ∧
      (Storage.importData ⟨some de, some dt⟩ "overwrite" s).2.tags = dt) := by
  rcases s with ⟨e, tg, out⟩
  simp only [Store.allWritesOk] at hw
  subst hw
  have hmerge : (Storage.importData ⟨some de, some dt⟩ "merge" ⟨e, tg, []⟩).2
      = ⟨objMerge e de, tg ++ dt.filter (fun t => ¬ (tg.map (·.id)).contains t.id), []⟩ := by
    simp only [Storage.importData]
    rw [if_neg (by decide : ¬ ("merge" : String) = "overwrite")]
    rfl
  have hover : (Storage.importData ⟨some de, some dt⟩ "overwrite" ⟨e, tg, []⟩).2
      = ⟨de, dt, []⟩ := by
    simp only [Storage.importData]
    rw [if_pos trivial]
    rfl
  refine ⟨⟨?_, ?_, ?_, ?_, ?_⟩, ?_, ?_⟩
  · intro d
    rw [hmerge]
    exact objGet_objMerge e de hwf d
  · rw [hmerge]
  · intro t ht
    rw [hmerge]
    exact List.mem_append_left _ ht
  · intro t ht hfresh
    rw [hmerge]
    refine List.mem_append_right _ (List.mem_filter.mpr ⟨ht, ?_⟩)
    rw [decide_eq_true_iff]
    intro hc
    rcases List.mem_map.mp (List.elem_iff.mp hc) with ⟨t0, ht0, hid⟩
    exact hfresh t0 ht0 hid
  · intro t ht
    rw [hmerge] at ht
    rcases List.mem_append.mp ht with h | h
    · exact Or.inl h
    · have h' := List.mem_filter.mp h
      refine Or.inr ⟨h'.1, ?_⟩
      have h2 := of_decide_eq_true h'.2
      intro t0 ht0 hid
      exact h2 (List.elem_eq_true_of_mem (List.mem_map.mpr ⟨t0, ht0, hid⟩))
  · rw [hover]
  · rw [hover]

/-- Witness for C1: the spec's scenario. The store holds tag
`{id: T1, name: Work}` and entries on 2024-01-05 / 2024-01-20; the snapshot
holds tag `{id: T1, name: Travail}`, a fresh tag `T2`, a replacement entry
for 2024-01-05 and a fresh entry on 2024-02-01. -/
theorem C1_witness :
    ObjWF sampleImportEntries ∧ sampleStore.allWritesOk ∧
    ((∀ d, objGet (Storage.importData ⟨some sampleImportEntries, some [tagTravail, tagHome]⟩
          "merge" sampleStore).2.entries d
        = (objGet sampleImportEntries d).or (objGet sampleStore.entries d)) ∧
      (Storage.importData ⟨some sampleImportEntries, some [tagTravail, tagHome]⟩
          "merge" sampleStore).2.tags
        = sampleStore.tags ++ [tagTravail, tagHome].filter
            (fun t => ¬ (sampleStore.tags.map (·.id)).contains t.id) ∧
      (∀ t ∈ sampleStore.tags,
        t ∈ (Storage.importData ⟨some sampleImportEntries, some [tagTravail, tagHome]⟩
          "merge" sampleStore).2.tags) ∧
      (∀ t ∈ [tagTravail, tagHome], (∀ t0 ∈ sampleStore.tags, t0.id ≠ t.id) →
        t ∈ (Storage.importData ⟨some sampleImportEntries, some [tagTravail, tagHome]⟩
          "merge" sampleStore).2.tags) ∧
      (∀ t ∈ (Storage.importData ⟨some sampleImportEntries, some [tagTravail, tagHome]⟩
          "merge" sampleStore).2.tags,
        t ∈ sampleStore.tags ∨ (t ∈ [tagTravail, tagHome] ∧
          ∀ t0 ∈ sampleStore.tags, t0.id ≠ t.id))) ∧
    ((Storage.importData ⟨some sampleImportEntries, some [tagTravail, tagHome]⟩
        "overwrite" sampleStore).2.entries = sampleImportEntries ∧
      (Storage.importData ⟨some sampleImportEntries, some [tagTravail, tagHome]⟩
        "overwrite" sampleStore).2.tags = [tagTravail, tagHome]) :=
  ⟨show (sampleImportEntries.map (·.1)).Nodup by decide, rfl,
    C1_import_merge_and_overwrite sampleStore sampleImportEntries [tagTravail, tagHome]
      (show (sampleImportEntries.map (·.1)).Nodup by decide) rfl⟩

/-- Whatever tag list survives stripping never contains the stripped id. -/
theorem stripTag_clears (tagId : String) (e : Entry) :
    ∀ ts, (Tags.stripTag tagId e).tags = some ts → tagId ∉ ts := by
  intro ts h
  rcases e with ⟨eid, edate, etitle, econtent, etags⟩
  cases etags with
  | none => simp [Tags.stripTag] at h
  | some ts0 =>
    by_cases hc : ts0.contains tagId
    · simp only [Tags.stripTag, hc, if_true] at h
      have hts : ts0.filter (fun t => t ≠ tagId) = ts := by
        simpa using h
      subst hts
      intro hmem
      have := (List.mem_filter.mp hmem).2
      simp at this
    · simp only [Tags.stripTag, hc] at h
      simp only [Bool.false_eq_true, if_false] at h
      have hts : ts0 = ts := by simpa using h
      subst hts
      intro hmem
      exact hc (List.elem_eq_true_of_mem hmem)

/-- Stripping is the identity on an entry that never references the id. -/
theorem stripTag_id_of_not_mem (tagId : String) (e : Entry)
    (h : ∀ ts, e.tags = some ts → tagId ∉ ts) : Tags.stripTag tagId e = e := by
  rcases e with ⟨eid, edate, etitle, econtent, etags⟩
  cases etags with
  | none => rfl
  | some ts0 =>
    by_cases hc : ts0.contains tagId
    · exact absurd (List.elem_iff.mp hc) (h ts0 rfl)
    · have hcf : ts0.contains tagId = false := by
        rw [← Bool.not_eq_true]
        exact hc
      simp only [Tags.stripTag, hcf, Bool.false_eq_true, if_false]

/-- Lookup commutes with mapping over the values of an object. -/
theorem objGet_map_snd (m : Obj α) (f : α → α) (k : String) :
    objGet (m.map (fun p => (p.1, f p.2))) k = (objGet m k).map f := by
  induction m with
  | nil => rfl
  | cons p rest ih =>
    rw [List.map_cons, objGet_cons, objGet_cons]
    by_cases hp : p.1 = k <;> simp [hp, ih]

/-- The store after `Tags.remove` with a successful write oracle: every
entry value is stripped and the tag record is filtered out. -/
theorem remove_result (ents : Obj Entry) (tg : List Tag) (tagId : String) :
    (Tags.remove tagId ⟨ents, tg, []⟩).2
      = ⟨ents.map (fun p => (p.1, Tags.stripTag tagId p.2)),
         tg.filter (fun t => t.id ≠ tagId), []⟩ := by
  by_cases hu : ents.any (fun p => match p.2.tags with
      | some ts => ts.contains tagId
      | none => false) = true
  · simp only [Tags.remove, Storage.getAllEntries, Storage.deleteTag, Storage.saveTags,
      Storage.setTags, Storage.setEntries, Store.popOutcome, hu, if_true]
  · have hmap : ents.map (fun p => (p.1, Tags.stripTag tagId p.2)) = ents := by
      have hid : ∀ p ∈ ents, (p.1, Tags.stripTag tagId p.2) = p := by
        intro p hp
        have hf : (match p.2.tags with
            | some ts => ts.contains tagId
            | none => false) = false := by
          rw [← Bool.not_eq_true]
          intro hb
          exact hu (List.any_eq_true.mpr ⟨p, hp, hb⟩)
        have hstrip : Tags.stripTag tagId p.2 = p.2 := by
          apply stripTag_id_of_not_mem
          intro ts hts hmem
          rw [hts] at hf
          change ts.contains tagId = false at hf
          have hc : ts.contains tagId = true := List.elem_eq_true_of_mem hmem
          rw [hc] at hf
          exact Bool.noConfusion hf
        rw [hstrip]
      have hcongr : ents.map (fun p => (p.1, Tags.stripTag tagId p.2))
          = ents.map (fun p => p) := List.map_congr_left hid
      rw [hcongr]
      exact List.map_id' ents
    simp only [Tags.remove, Storage.getAllEntries, Storage.deleteTag, Storage.saveTags,
      Storage.setTags, Storage.setEntries, Store.popOutcome, hu, if_false, Bool.false_eq_true]
    rw [hmap]
    rfl

/-- C4: after the cascading tag delete `Tags.remove(T)` completes (with
successful writes), no entry in the entries collection contains `T` in its
tag set, `T` is absent from the tag collection, re-fetching any stored date
yields the stripped entry — which never contains `T` — and stripping is the
identity on entries that did not reference `T`, so those are unchanged. -/
theorem C4_cascading_tag_delete (s : Store) (tagId : String) (hw : s.allWritesOk) :
    (∀ p ∈ (Tags.remove tagId s).2.entries, ∀ ts, p.2.tags = some ts → tagId ∉ ts) ∧
    (∀ t ∈ (Tags.remove tagId s).2.tags, t.id ≠ tagId) ∧
    (∀ d e, objGet s.entries d = some e →
      objGet (Tags.remove tagId s).2.entries d = some (Tags.stripTag tagId e)) ∧
    (∀ e : Entry, (∀ ts, e.tags = some ts → tagId ∉ ts) → Tags.stripTag tagId e = e) ∧
    (∀ d e', Storage.getEntry d (Tags.remove tagId s).2 = some e' →
      ∀ ts, e'.tags = some ts → tagId ∉ ts) := by
  rcases s with ⟨ents, tg, out⟩
  simp only [Store.allWritesOk] at hw
  subst hw
  rw [remove_result]
  refine ⟨?_, ?_, ?_, ?_, ?_⟩
  · intro p hp ts hts
    rcases List.mem_map.mp hp with ⟨q, hq, hpq⟩
    refine stripTag_clears tagId q.2 ts ?_
    rw [← hpq] at hts
    exact hts
  · intro t ht
    exact of_decide_eq_true (List.mem_filter.mp ht).2
  · intro d e he
    rw [objGet_map_snd, he]
    rfl
  · exact fun e he => stripTag_id_of_not_mem tagId e he
  · intro d e' he' ts hts
    simp only [Storage.getEntry] at he'
    rw [objGet_map_snd] at he'
    rcases Option.map_eq_some'.mp he' with ⟨e0, he0, hmap⟩
    refine stripTag_clears tagId e0 ts ?_
    rw [← hmap] at hts
    exact hts

/-- Witness for C4 at the sample store, deleting tag id `T1` which entry
2024-01-05 references and entry 2024-01-20 does not. -/
theorem C4_witness :
    sampleStore.allWritesOk ∧
    ((∀ p ∈ (Tags.remove "T1" sampleStore).2.entries,
        ∀ ts, p.2.tags = some ts → "T1" ∉ ts) ∧
      (∀ t ∈ (Tags.remove "T1" sampleStore).2.tags, t.id ≠ "T1") ∧
      (∀ d e, objGet sampleStore.entries d = some e →
        objGet (Tags.remove "T1" sampleStore).2.entries d
          = some (Tags.stripTag "T1" e)) ∧
      (∀ e : Entry, (∀ ts, e.tags = some ts → "T1" ∉ ts) →
        Tags.stripTag "T1" e = e) ∧
      (∀ d e', Storage.getEntry d (Tags.remove "T1" sampleStore).2 = some e' →
        ∀ ts, e'.tags = some ts → "T1" ∉ ts)) :=
  ⟨rfl, C4_cascading_tag_delete sampleStore "T1" rfl⟩

/-- The descending-date comparator is transitive. -/
theorem dateDescLe_trans (a b c : Entry) :
    Search.dateDescLe a b → Search.dateDescLe b c → Search.dateDescLe a c := by
  intro hab hbc
  exact decide_eq_true (le_trans (of_decide_eq_true hbc) (of_decide_eq_true hab))

/-- The descending-date comparator is total. -/
theorem dateDescLe_total (a b : Entry) :
    Search.dateDescLe a b || Search.dateDescLe b a := by
  unfold Search.dateDescLe
  rcases le_total b.date a.date with h | h
  · simp [h]
  · simp [h]

/-- C2: over a well-formed store, `search({})` from the pristine filter
state returns every stored entry (a permutation of the collection's values)
ordered strictly descending by the entry's date string. -/
theorem C2_search_empty_returns_all_desc (s : Store) (hwf : Store.WF s) :
    (Search.search Search.emptyArg Search.initialFilters s).1.Perm
      (s.entries.map (fun p => p.2)) ∧
    (Search.search Search.emptyArg Search.initialFilters s).1.Pairwise
      (fun a b => b.date < a.date) := by
  have hres : (Search.search Search.emptyArg Search.initialFilters s).1
      = (s.entries.map (fun p => p.2)).mergeSort Search.dateDescLe := rfl
  have hperm : (Search.search Search.emptyArg Search.initialFilters s).1.Perm
      (s.entries.map (fun p => p.2)) := by
    rw [hres]
    exact List.mergeSort_perm _ _
  refine ⟨hperm, ?_⟩
  have hpair : (Search.search Search.emptyArg Search.initialFilters s).1.Pairwise
      (fun a b => Search.dateDescLe a b) := by
    rw [hres]
    exact List.sorted_mergeSort dateDescLe_trans dateDescLe_total _
  have hkeys : s.entries.map (fun p => p.2.date) = s.entries.map (fun p => p.1) :=
    List.map_congr_left (fun p hp => hwf.2 p hp)
  have hnodupvals : ((s.entries.map (fun p => p.2)).map (fun e => e.date)).Nodup := by
    rw [List.map_map]
    show (s.entries.map (fun p => p.2.date)).Nodup
    rw [hkeys]
    exact hwf.1
  have hnodr : ((Search.search Search.emptyArg Search.initialFilters s).1.map
      (fun e => e.date)).Nodup :=
    ((hperm.map (fun e => e.date)).nodup_iff).mpr hnodupvals
  have hne : (Search.search Search.emptyArg Search.initialFilters s).1.Pairwise
      (fun a b => a.date ≠ b.date) := List.pairwise_map.mp hnodr
  refine (hpair.and hne).imp ?_
  rintro a b ⟨hle, hned⟩
  exact lt_of_le_of_ne (of_decide_eq_true hle) (fun h => hned h.symm)

/-- Witness for C2 at the sample store: entries on 2024-01-05 and
2024-01-20 with distinct date keys. -/
theorem C2_witness :
    Store.WF sampleStore ∧
    ((Search.search Search.emptyArg Search.initialFilters sampleStore).1.Perm
        (sampleStore.entries.map (fun p => p.2)) ∧
      (Search.search Search.emptyArg Search.initialFilters sampleStore).1.Pairwise
        (fun a b => b.date < a.date)) :=
  have hwf : Store.WF sampleStore :=
    ⟨show (sampleStore.entries.map (fun p => p.1)).Nodup by decide, by decide⟩
  ⟨hwf, C2_search_empty_returns_all_desc sampleStore hwf⟩

/-- Every month 0–11 has at least one day. -/
theorem monthLength_pos (y m : Nat) (hm : m ≤ 11) : 1 ≤ Calendar.monthLength y m := by
  interval_cases m
  all_goals simp only [Calendar.monthLength]
  all_goals try omega
  split <;> omega

/-- Closed form of the `renderDays` cell loop: processing the indices from
`i` on, with the day counters consistent with `i`, yields for each index
the closed-form cell (previous-month tail, current-month days, next-month
head). -/
theorem buildCellsFrom_eq_map (ctx : Calendar.GridCtx) (sdw lastDate prevLast : Nat)
    (hN : 1 ≤ lastDate) :
    ∀ n i dc nmd,
      (i ≤ sdw → dc = 1) →
      (sdw ≤ i → i ≤ sdw + lastDate → dc = i - sdw + 1) →
      (sdw + lastDate ≤ i → dc = lastDate + 1) →
      (i ≤ sdw + lastDate → nmd = 1) →
      (sdw + lastDate ≤ i → nmd = i - sdw - lastDate + 1) →
      Calendar.buildCellsFrom ctx sdw lastDate prevLast (List.range' i n) dc nmd
        = (List.range' i n).map (fun j =>
            if j < sdw then
              Calendar.mkCell ctx j (prevLast + j + 1 - sdw)
                (Calendar.formatYMD (if ctx.month = 0 then ctx.year - 1 else ctx.year)
                  (if ctx.month = 0 then 11 else ctx.month - 1) (prevLast + j + 1 - sdw)) true
            else if j < sdw + lastDate then
              Calendar.mkCell ctx j (j - sdw + 1)
                (Calendar.formatYMD ctx.year ctx.month (j - sdw + 1)) false
            else
              Calendar.mkCell ctx j (j - sdw - lastDate + 1)
                (Calendar.formatYMD (if ctx.month = 11 then ctx.year + 1 else ctx.year)
                  (if ctx.month = 11 then 0 else ctx.month + 1)
                  (j - sdw - lastDate + 1)) true) := by
  intro n
  induction n with
  | zero =>
    intro i dc nmd _ _ _ _ _
    rfl
  | succ n ih =>
    intro i dc nmd h1 h2 h3 h4 h5
    rw [List.range'_succ]
    simp only [List.map_cons]
    by_cases hi : i < sdw
    · have hdc : dc = 1 := h1 (Nat.le_of_lt hi)
      have hnmd : nmd = 1 := h4 (by omega)
      have hstep : Calendar.buildCellsFrom ctx sdw lastDate prevLast
            (i :: List.range' (i + 1) n) dc nmd
          = Calendar.mkCell ctx i (prevLast + i + 1 - sdw)
              (Calendar.formatYMD (if ctx.month = 0 then ctx.year - 1 else ctx.year)
                (if ctx.month = 0 then 11 else ctx.month - 1) (prevLast + i + 1 - sdw)) true
            :: Calendar.buildCellsFrom ctx sdw lastDate prevLast
                (List.range' (i + 1) n) dc nmd := by
        simp only [Calendar.buildCellsFrom]
        rw [if_pos hi]
      rw [hstep, if_pos hi]
      rw [ih (i + 1) dc nmd (fun _ => hdc) (fun ha hb => by omega) (fun ha => by omega)
        (fun _ => hnmd) (fun ha => by omega)]
    · have hsd : sdw ≤ i := Nat.le_of_not_lt hi
      by_cases hdcle : dc ≤ lastDate
      · have hilt : i < sdw + lastDate := by
          by_contra hcon
          have := h3 (Nat.le_of_not_lt hcon)
          omega
        have hdc : dc = i - sdw + 1 := h2 hsd (Nat.le_of_lt hilt)
        have hnmd : nmd = 1 := h4 (Nat.le_of_lt hilt)
        have hstep : Calendar.buildCellsFrom ctx sdw lastDate prevLast
              (i :: List.range' (i + 1) n) dc nmd
            = Calendar.mkCell ctx i dc (Calendar.formatYMD ctx.year ctx.month dc) false
              :: Calendar.buildCellsFrom ctx sdw lastDate prevLast
                  (List.range' (i + 1) n) (dc + 1) nmd := by
          simp only [Calendar.buildCellsFrom]
          rw [if_neg hi, if_pos hdcle]
        rw [hstep, if_neg hi, if_pos hilt, hdc]
        rw [ih (i + 1) (i - sdw + 1 + 1) nmd (fun ha => by omega) (fun ha hb => by omega)
          (fun ha => by omega) (fun _ => hnmd) (fun ha => by omega)]
      · have hige : sdw + lastDate ≤ i := by
          by_contra hcon
          have hi2 : i < sdw + lastDate := Nat.lt_of_not_le hcon
          have := h2 hsd (Nat.le_of_lt hi2)
          omega
        have hdc : dc = lastDate + 1 := h3 hige
        have hnmd : nmd = i - sdw - lastDate + 1 := h5 hige
        have hstep : Calendar.buildCellsFrom ctx sdw lastDate prevLast
              (i :: List.range' (i + 1) n) dc nmd
            = Calendar.mkCell ctx i nmd
                (Calendar.formatYMD (if ctx.month = 11 then ctx.year + 1 else ctx.year)
                  (if ctx.month = 11 then 0 else ctx.month + 1) nmd) true
              :: Calendar.buildCellsFrom ctx sdw lastDate prevLast
                  (List.range' (i + 1) n) dc (nmd + 1) := by
          simp only [Calendar.buildCellsFrom]
          rw [if_neg hi, if_neg hdcle]
        rw [hstep, if_neg hi, if_neg (by omega : ¬ i < sdw + lastDate), hnmd]
        rw [ih (i + 1) dc (i - sdw - lastDate + 1 + 1) (fun ha => by omega)
          (fun ha hb => by omega) (fun _ => hdc) (fun ha => by omega) (fun ha => by omega)]

/-- C6: for every year ≥ 1 and every month 0–11, `renderDays` produces
exactly 42 cells; a cell whose index is below the weekday of the month's
1st carries the previous month's tail (day counted backward from that
month's last day, January carrying year−1 and month 11), the next
`monthLength` cells carry the current month's days 1..N in order, and the
remaining cells carry the next month from day 1 (December carrying year+1
and month 0). -/
theorem C6_renderDays_grid (ctx : Calendar.GridCtx)
    (_hy : 1 ≤ ctx.year) (hm : ctx.month ≤ 11) :
    (Calendar.renderDaysCells ctx).length = 42 ∧
    (∀ i, i < 42 →
      (i < Calendar.dayOfWeek ctx.year ctx.month 1 →
        (Calendar.renderDaysCells ctx).getD i (Calendar.mkCell ctx 0 0 "" false)
          = Calendar.mkCell ctx i
              (Calendar.prevMonthLastDay ctx.year ctx.month + i + 1
                - Calendar.dayOfWeek ctx.year ctx.month 1)
              (Calendar.formatYMD (if ctx.month = 0 then ctx.year - 1 else ctx.year)
                (if ctx.month = 0 then 11 else ctx.month - 1)
                (Calendar.prevMonthLastDay ctx.year ctx.month + i + 1
                  - Calendar.dayOfWeek ctx.year ctx.month 1)) true) ∧
      (Calendar.dayOfWeek ctx.year ctx.month 1 ≤ i →
        i < Calendar.dayOfWeek ctx.year ctx.month 1
            + Calendar.monthLength ctx.year ctx.month →
        (Calendar.renderDaysCells ctx).getD i (Calendar.mkCell ctx 0 0 "" false)
          = Calendar.mkCell ctx i (i - Calendar.dayOfWeek ctx.year ctx.month 1 + 1)
              (Calendar.formatYMD ctx.year ctx.month
                (i - Calendar.dayOfWeek ctx.year ctx.month 1 + 1)) false) ∧
      (Calendar.dayOfWeek ctx.year ctx.month 1
          + Calendar.monthLength ctx.year ctx.month ≤ i →
        (Calendar.renderDaysCells ctx).getD i (Calendar.mkCell ctx 0 0 "" false)
          = Calendar.mkCell ctx i
              (i - Calendar.dayOfWeek ctx.year ctx.month 1
                - Calendar.monthLength ctx.year ctx.month + 1)
              (Calendar.formatYMD (if ctx.month = 11 then ctx.year + 1 else ctx.year)
                (if ctx.month = 11 then 0 else ctx.month + 1)
                (i - Calendar.dayOfWeek ctx.year ctx.month 1
                  - Calendar.monthLength ctx.year ctx.month + 1)) true)) := by
  have hN := monthLength_pos ctx.year ctx.month hm
  have hmap : Calendar.renderDaysCells ctx
      = (List.range' 0 42).map (fun j =>
          if j < Calendar.dayOfWeek ctx.year ctx.month 1 then
            Calendar.mkCell ctx j
              (Calendar.prevMonthLastDay ctx.year ctx.month + j + 1
                - Calendar.dayOfWeek ctx.year ctx.month 1)
              (Calendar.formatYMD (if ctx.month = 0 then ctx.year - 1 else ctx.year)
                (if ctx.month = 0 then 11 else ctx.month - 1)
                (Calendar.prevMonthLastDay ctx.year ctx.month + j + 1
                  - Calendar.dayOfWeek ctx.year ctx.month 1)) true
          else if j < Calendar.dayOfWeek ctx.year ctx.month 1
              + Calendar.monthLength ctx.year ctx.month then
            Calendar.mkCell ctx j (j - Calendar.dayOfWeek ctx.year ctx.month 1 + 1)
              (Calendar.formatYMD ctx.year ctx.month
                (j - Calendar.dayOfWeek ctx.year ctx.month 1 + 1)) false
          else
            Calendar.mkCell ctx j
              (j - Calendar.dayOfWeek ctx.year ctx.month 1
                - Calendar.monthLength ctx.year ctx.month + 1)
              (Calendar.formatYMD (if ctx.month = 11 then ctx.year + 1 else ctx.year)
                (if ctx.month = 11 then 0 else ctx.month + 1)
                (j - Calendar.dayOfWeek ctx.year ctx.month 1
                  - Calendar.monthLength ctx.year ctx.month + 1)) true) := by
    show Calendar.buildCellsFrom ctx (Calendar.dayOfWeek ctx.year ctx.month 1)
        (Calendar.monthLength ctx.year ctx.month)
        (Calendar.prevMonthLastDay ctx.year ctx.month) (List.range 42) 1 1 = _
    rw [List.range_eq_range']
    exact buildCellsFrom_eq_map ctx _ _ _ hN 42 0 1 1
      (fun _ => rfl) (fun ha hb => by omega) (fun ha => by omega)
      (fun _ => rfl) (fun ha => by omega)
  refine ⟨by rw [hmap, List.length_map, List.length_range'], ?_⟩
  intro i hi
  have hgi : (Calendar.renderDaysCells ctx).getD i (Calendar.mkCell ctx 0 0 "" false)
      = (if i < Calendar.dayOfWeek ctx.year ctx.month 1 then
          Calendar.mkCell ctx i
            (Calendar.prevMonthLastDay ctx.year ctx.month + i + 1
              - Calendar.dayOfWeek ctx.year ctx.month 1)
            (Calendar.formatYMD (if ctx.month = 0 then ctx.year - 1 else ctx.year)
              (if ctx.month = 0 then 11 else ctx.month - 1)
              (Calendar.prevMonthLastDay ctx.year ctx.month + i + 1
                - Calendar.dayOfWeek ctx.year ctx.month 1)) true
        else if i < Calendar.dayOfWeek ctx.year ctx.month 1
            + Calendar.monthLength ctx.year ctx.month then
          Calendar.mkCell ctx i (i - Calendar.dayOfWeek ctx.year ctx.month 1 + 1)
            (Calendar.formatYMD ctx.year ctx.month
              (i - Calendar.dayOfWeek ctx.year ctx.month 1 + 1)) false
        else
          Calendar.mkCell ctx i
            (i - Calendar.dayOfWeek ctx.year ctx.month 1
              - Calendar.monthLength ctx.year ctx.month + 1)
            (Calendar.formatYMD (if ctx.month = 11 then ctx.year + 1 else ctx.year)
              (if ctx.month = 11 then 0 else ctx.month + 1)
              (i - Calendar.dayOfWeek ctx.year ctx.month 1
                - Calendar.monthLength ctx.year ctx.month + 1)) true) := by
    rw [hmap, List.getD_eq_getElem?_getD, List.getElem?_map, List.getElem?_range' 0 1 hi]
    simp only [Option.map_some', Option.getD_some, Nat.zero_add, Nat.one_mul]
  refine ⟨?_, ?_, ?_⟩
  · intro h1
    rw [hgi, if_pos h1]
  · intro h1 h2
    rw [hgi, if_neg (by omega), if_pos h2]
  · intro h1
    rw [hgi, if_neg (by omega), if_neg (by omega)]


/-- Witness for C6: February 2024 (leap year; Feb 1, 2024 is a Thursday, so
the first 4 cells are January's 28–31, cells 4–32 are February's 29 days,
and the rest are March). -/
theorem C6_witness :
    1 ≤ (⟨2024, 1, "2024-02-14", none, ["2024-01-05"]⟩ : Calendar.GridCtx).year ∧
    (⟨2024, 1, "2024-02-14", none, ["2024-01-05"]⟩ : Calendar.GridCtx).month ≤ 11 ∧
    ((Calendar.renderDaysCells (⟨2024, 1, "2024-02-14", none, ["2024-01-05"]⟩ : Calendar.GridCtx)).length = 42 ∧
    (∀ i, i < 42 →
      (i < Calendar.dayOfWeek (⟨2024, 1, "2024-02-14", none, ["2024-01-05"]⟩ : Calendar.GridCtx).year (⟨2024, 1, "2024-02-14", none, ["2024-01-05"]⟩ : Calendar.GridCtx).month 1 →
        (Calendar.renderDaysCells (⟨2024, 1, "2024-02-14", none, ["2024-01-05"]⟩ : Calendar.GridCtx)).getD i (Calendar.mkCell (⟨2024, 1, "2024-02-14", none, ["2024-01-05"]⟩ : Calendar.GridCtx) 0 0 "" false)
          = Calendar.mkCell (⟨2024, 1, "2024-02-14", none, ["2024-01-05"]⟩ : Calendar.GridCtx) i
              (Calendar.prevMonthLastDay (⟨2024, 1, "2024-02-14", none, ["2024-01-05"]⟩ : Calendar.GridCtx).year (⟨2024, 1, "2024-02-14", none, ["2024-01-05"]⟩ : Calendar.GridCtx).month + i + 1
                - Calendar.dayOfWeek (⟨2024, 1, "2024-02-14", none, ["2024-01-05"]⟩ : Calendar.GridCtx).year (⟨2024, 1, "2024-02-14", none, ["2024-01-05"]⟩ : Calendar.GridCtx).month 1)
              (Calendar.formatYMD (if (⟨2024, 1, "2024-02-14", none, ["2024-01-05"]⟩ : Calendar.GridCtx).month = 0 then (⟨2024, 1, "2024-02-14", none, ["2024-01-05"]⟩ : Calendar.GridCtx).year - 1 else (⟨2024, 1, "2024-02-14", none, ["2024-01-05"]⟩ : Calendar.GridCtx).year)
                (if (⟨2024, 1, "2024-02-14", none, ["2024-01-05"]⟩ : Calendar.GridCtx).month = 0 then 11 else (⟨2024, 1, "2024-02-14", none, ["2024-01-05"]⟩ : Calendar.GridCtx).month - 1)
                (Calendar.prevMonthLastDay (⟨2024, 1, "2024-02-14", none, ["2024-01-05"]⟩ : Calendar.GridCtx).year (⟨2024, 1, "2024-02-14", none, ["2024-01-05"]⟩ : Calendar.GridCtx).month + i + 1
                  - Calendar.dayOfWeek (⟨2024, 1, "2024-02-14", none, ["2024-01-05"]⟩ : Calendar.GridCtx).year (⟨2024, 1, "2024-02-14", none, ["2024-01-05"]⟩ : Calendar.GridCtx).month 1)) true) ∧
      (Calendar.dayOfWeek (⟨2024, 1, "2024-02-14", none, ["2024-01-05"]⟩ : Calendar.GridCtx).year (⟨2024, 1, "2024-02-14", none, ["2024-01-05"]⟩ : Calendar.GridCtx).month 1 ≤ i →
        i < Calendar.dayOfWeek (⟨2024, 1, "2024-02-14", none, ["2024-01-05"]⟩ : Calendar.GridCtx).year (⟨2024, 1, "2024-02-14", none, ["2024-01-05"]⟩ : Calendar.GridCtx).month 1
            + Calendar.monthLength (⟨2024, 1, "2024-02-14", none, ["2024-01-05"]⟩ : Calendar.GridCtx).year (⟨2024, 1, "2024-02-14", none, ["2024-01-05"]⟩ : Calendar.GridCtx).month →
        (Calendar.renderDaysCells (⟨2024, 1, "2024-02-14", none, ["2024-01-05"]⟩ : Calendar.GridCtx)).getD i (Calendar.mkCell (⟨2024, 1, "2024-02-14", none, ["2024-01-05"]⟩ : Calendar.GridCtx) 0 0 "" false)
          = Calendar.mkCell (⟨2024, 1, "2024-02-14", none, ["2024-01-05"]⟩ : Calendar.GridCtx) i (i - Calendar.dayOfWeek (⟨2024, 1, "2024-02-14", none, ["2024-01-05"]⟩ : Calendar.GridCtx).year (⟨2024, 1, "2024-02-14", none, ["2024-01-05"]⟩ : Calendar.GridCtx).month 1 + 1)
              (Calendar.formatYMD (⟨2024, 1, "2024-02-14", none, ["2024-01-05"]⟩ : Calendar.GridCtx).year (⟨2024, 1, "2024-02-14", none, ["2024-01-05"]⟩ : Calendar.GridCtx).month
                (i - Calendar.dayOfWeek (⟨2024, 1, "2024-02-14", none, ["2024-01-05"]⟩ : Calendar.GridCtx).year (⟨2024, 1, "2024-02-14", none, ["2024-01-05"]⟩ : Calendar.GridCtx).month 1 + 1)) false) ∧
      (Calendar.dayOfWeek (⟨2024, 1, "2024-02-14", none, ["2024-01-05"]⟩ : Calendar.GridCtx).year (⟨2024, 1, "2024-02-14", none, ["2024-01-05"]⟩ : Calendar.GridCtx).month 1
          + Calendar.monthLength (⟨2024, 1, "2024-02-14", none, ["2024-01-05"]⟩ : Calendar.GridCtx).year (⟨2024, 1, "2024-02-14", none, ["2024-01-05"]⟩ : Calendar.GridCtx).month ≤ i →
        (Calendar.renderDaysCells (⟨2024, 1, "2024-02-14", none, ["2024-01-05"]⟩ : Calendar.GridCtx)).getD i (Calendar.mkCell (⟨2024, 1, "2024-02-14", none, ["2024-01-05"]⟩ : Calendar.GridCtx) 0 0 "" false)
          = Calendar.mkCell (⟨2024, 1, "2024-02-14", none, ["2024-01-05"]⟩ : Calendar.GridCtx) i
              (i - Calendar.dayOfWeek (⟨2024, 1, "2024-02-14", none, ["2024-01-05"]⟩ : Calendar.GridCtx).year (⟨2024, 1, "2024-02-14", none, ["2024-01-05"]⟩ : Calendar.GridCtx).month 1
                - Calendar.monthLength (⟨2024, 1, "2024-02-14", none, ["2024-01-05"]⟩ : Calendar.GridCtx).year (⟨2024, 1, "2024-02-14", none, ["2024-01-05"]⟩ : Calendar.GridCtx).month + 1)
              (Calendar.formatYMD (if (⟨2024, 1, "2024-02-14", none, ["2024-01-05"]⟩ : Calendar.GridCtx).month = 11 then (⟨2024, 1, "2024-02-14", none, ["2024-01-05"]⟩ : Calendar.GridCtx).year + 1 else (⟨2024, 1, "2024-02-14", none, ["2024-01-05"]⟩ : Calendar.GridCtx).year)
                (if (⟨2024, 1, "2024-02-14", none, ["2024-01-05"]⟩ : Calendar.GridCtx).month = 11 then 0 else (⟨2024, 1, "2024-02-14", none, ["2024-01-05"]⟩ : Calendar.GridCtx).month + 1)
                (i - Calendar.dayOfWeek (⟨2024, 1, "2024-02-14", none, ["2024-01-05"]⟩ : Calendar.GridCtx).year (⟨2024, 1, "2024-02-14", none, ["2024-01-05"]⟩ : Calendar.GridCtx).month 1
                  - Calendar.monthLength (⟨2024, 1, "2024-02-14", none, ["2024-01-05"]⟩ : Calendar.GridCtx).year (⟨2024, 1, "2024-02-14", none, ["2024-01-05"]⟩ : Calendar.GridCtx).month + 1)) true))) :=
  ⟨by decide, by decide,
    C6_renderDays_grid (⟨2024, 1, "2024-02-14", none, ["2024-01-05"]⟩ : Calendar.GridCtx) (by decide) (by decide)⟩

end Diary
